import Mathlib

/-!
Verification of the natural-language specification of the WebScraper
repository (chikocharles/WebScraper) against its two main revisions,
src/web_scraper.py (the final revision) and src/web_scraper_clean.py
(an earlier revision).

Python strings are modelled as List Char.  Pure functions of the source
are translated into executable Lean definitions; names follow the source
(definitions from the earlier revision carry a _clean suffix, matching
the file name web_scraper_clean.py).  Python exceptions are modelled with
Option / Except; datetime.now() is modelled by an explicit today argument.
-/

/-- Python str.isspace for the code points that can remain after the
ASCII filter of clean_text: 9-13, 28-31 and 32. -/
def pyIsSpace (c : Char) : Bool :=
  c.toNat == 32 || (9 ≤ c.toNat && c.toNat ≤ 13) || (28 ≤ c.toNat && c.toNat ≤ 31)

/-- Python str.lower, modelled per character (exact on ASCII input). -/
def pyLower (s : List Char) : List Char := s.map Char.toLower

/-- startsWithChars n h: n is an initial segment of h. -/
def startsWithChars : List Char → List Char → Bool
  | [], _ => true
  | _ :: _, [] => false
  | a :: as, b :: bs => a == b && startsWithChars as bs

/-- Python substring test (kw in s), over character lists. -/
def containsSub (n : List Char) : List Char → Bool
  | [] => startsWithChars n []
  | c :: t => startsWithChars n (c :: t) || containsSub n t

/-- Substring test with a string literal needle. -/
def pIn (kw : String) (s : List Char) : Bool := containsSub kw.toList s

/-- Drop trailing characters satisfying p. -/
def dropTrailingWhile (p : Char → Bool) (l : List Char) : List Char :=
  (l.reverse.dropWhile p).reverse

/-- Python str.strip(): remove leading and trailing whitespace. -/
def pyStrip (l : List Char) : List Char :=
  dropTrailingWhile pyIsSpace (l.dropWhile pyIsSpace)

/-- Python str.replace with single-character pattern and replacement. -/
def replaceChar (a b : Char) (l : List Char) : List Char :=
  l.map (fun c => if c = a then b else c)

/-- Python str.replace with single-character pattern and empty replacement. -/
def removeChar (a : Char) (l : List Char) : List Char :=
  l.filter (fun c => c != a)

/-- re.sub of [^\x00-\x7F]+ with the empty string: keep only ASCII. -/
def asciiFilter (l : List Char) : List Char :=
  l.filter (fun c => decide (c.toNat ≤ 127))

/-- clean_text, identical in web_scraper.py (lines 19-29) and
web_scraper_clean.py (lines 18-28): replace typographic punctuation with
ASCII equivalents, drop the ellipsis, drop any remaining non-ASCII
character and strip surrounding whitespace. -/
def clean_text (l : List Char) : List Char :=
  let t1 := replaceChar '–' '-' l
  let t2 := replaceChar '—' '-' t1
  let t3 := replaceChar '‘' (Char.ofNat 39) t2
  let t4 := replaceChar '’' (Char.ofNat 39) t3
  let t5 := replaceChar '“' '"' t4
  let t6 := replaceChar '”' '"' t5
  let t7 := removeChar '…' t6
  pyStrip (asciiFilter t7)

/-- A calendar date as produced by datetime.date. -/
structure PyDate where
  year : Nat
  month : Nat
  day : Nat
deriving DecidableEq, Repr

/-- Python date comparison a <= b (lexicographic on year, month, day). -/
def dateLe (a b : PyDate) : Bool :=
  decide (a.year < b.year) ||
    (a.year == b.year &&
      (decide (a.month < b.month) || (a.month == b.month && decide (a.day ≤ b.day))))

def isLeapYear (y : Nat) : Bool :=
  y % 4 == 0 && (y % 100 != 0 || y % 400 == 0)

def daysInMonth (y m : Nat) : Nat :=
  if m = 2 then (if isLeapYear y then 29 else 28)
  else if m = 4 ∨ m = 6 ∨ m = 9 ∨ m = 11 then 30
  else 31

/-- The validation datetime.date performs on construction
(MINYEAR = 1, MAXYEAR = 9999). -/
def validDate (y m d : Nat) : Bool :=
  decide (1 ≤ y) && decide (y ≤ 9999) && decide (1 ≤ m) && decide (m ≤ 12) &&
    decide (1 ≤ d) && decide (d ≤ daysInMonth y m)

def nextDay (d : PyDate) : PyDate :=
  if d.day < daysInMonth d.year d.month then ⟨d.year, d.month, d.day + 1⟩
  else if d.month < 12 then ⟨d.year, d.month + 1, 1⟩
  else ⟨d.year + 1, 1, 1⟩

/-- date + timedelta(days = n). -/
def addDays : PyDate → Nat → PyDate
  | d, 0 => d
  | d, n + 1 => addDays (nextDay d) n

/-- Directives of the strptime format strings appearing in the source
(after the source's fmt.replace of commas): full month name, abbreviated
month name, day number, month number, 4-digit year, 2-digit year, a
whitespace run, and a literal character. -/
inductive FmtTok where
  | monthFull
  | monthAbbr
  | dayNum
  | monthNum
  | year4
  | year2
  | ws
  | lit (c : Char)

/-- The struct_time fields relevant here, with strptime's defaults. -/
structure DT where
  year : Nat := 1900
  month : Nat := 1
  day : Nat := 1

def monthNamesFull : List (Nat × List Char) :=
  [(1, "january".toList), (2, "february".toList), (3, "march".toList),
   (4, "april".toList), (5, "may".toList), (6, "june".toList),
   (7, "july".toList), (8, "august".toList), (9, "september".toList),
   (10, "october".toList), (11, "november".toList), (12, "december".toList)]

def monthNamesAbbr : List (Nat × List Char) :=
  [(1, "jan".toList), (2, "feb".toList), (3, "mar".toList),
   (4, "apr".toList), (5, "may".toList), (6, "jun".toList),
   (7, "jul".toList), (8, "aug".toList), (9, "sep".toList),
   (10, "oct".toList), (11, "nov".toList), (12, "dec".toList)]

/-- Case-insensitive month-name match at the head of s (the names of a
table are pairwise non-overlapping prefixes, so at most one matches). -/
def findMonth : List (Nat × List Char) → List Char → Option (Nat × List Char)
  | [], _ => none
  | (i, nm) :: rest, s =>
    if startsWithChars nm (pyLower s) then some (i, s.drop nm.length)
    else findMonth rest s

def digitVal (c : Char) : Nat := c.toNat - 48

def natOfDigits (ds : List Char) : Nat :=
  ds.foldl (fun a c => a * 10 + digitVal c) 0

/-- Run a strptime format over the input, CPython style: each directive
matches as its compiled regex fragment does (day and month numbers allow
one or two digits preferring two, format whitespace matches a nonempty
whitespace run), and the whole input must be consumed. -/
def runFmt : List FmtTok → DT → List Char → Option DT
  | [], st, s => if s = [] then some st else none
  | .monthFull :: rest, st, s =>
    match findMonth monthNamesFull s with
    | some (m, r) => runFmt rest { st with month := m } r
    | none => none
  | .monthAbbr :: rest, st, s =>
    match findMonth monthNamesAbbr s with
    | some (m, r) => runFmt rest { st with month := m } r
    | none => none
  | .dayNum :: rest, st, s =>
    (match s with
     | c1 :: c2 :: r =>
       if c1.isDigit && c2.isDigit then
         let v := 10 * digitVal c1 + digitVal c2
         if 1 ≤ v ∧ v ≤ 31 then runFmt rest { st with day := v } r else none
       else none
     | _ => none) <|>
    (match s with
     | c1 :: r =>
       if c1.isDigit && c1 != '0' then runFmt rest { st with day := digitVal c1 } r
       else none
     | _ => none)
  | .monthNum :: rest, st, s =>
    (match s with
     | c1 :: c2 :: r =>
       if c1.isDigit && c2.isDigit then
         let v := 10 * digitVal c1 + digitVal c2
         if 1 ≤ v ∧ v ≤ 12 then runFmt rest { st with month := v } r else none
       else none
     | _ => none) <|>
    (match s with
     | c1 :: r =>
       if c1.isDigit && c1 != '0' then runFmt rest { st with month := digitVal c1 } r
       else none
     | _ => none)
  | .year4 :: rest, st, s =>
    match s with
    | c1 :: c2 :: c3 :: c4 :: r =>
      if c1.isDigit && c2.isDigit && c3.isDigit && c4.isDigit then
        runFmt rest { st with year := natOfDigits [c1, c2, c3, c4] } r
      else none
    | _ => none
  | .year2 :: rest, st, s =>
    match s with
    | c1 :: c2 :: r =>
      if c1.isDigit && c2.isDigit then
        let yy := 10 * digitVal c1 + digitVal c2
        runFmt rest { st with year := if yy ≤ 68 then yy + 2000 else yy + 1900 } r
      else none
    | _ => none
  | .ws :: rest, st, s =>
    let t := s.dropWhile pyIsSpace
    if t.length < s.length then runFmt rest st t else none
  | .lit c :: rest, st, s =>
    match s with
    | x :: r => if x = c then runFmt rest st r else none
    | _ => none

/-- datetime.strptime restricted to the formats used by the source:
run the format, then datetime construction validates the fields. -/
def pyStrptime (toks : List FmtTok) (s : List Char) : Option PyDate :=
  match runFmt toks {} s with
  | some st =>
    if validDate st.year st.month st.day then some ⟨st.year, st.month, st.day⟩
    else none
  | none => none

def fmtBdY : List FmtTok := [.monthFull, .ws, .dayNum, .ws, .year4]

def fmtbdY : List FmtTok := [.monthAbbr, .ws, .dayNum, .ws, .year4]

def fmtdBY : List FmtTok := [.dayNum, .ws, .monthFull, .ws, .year4]

def fmtdbY : List FmtTok := [.dayNum, .ws, .monthAbbr, .ws, .year4]

def fmtYmd : List FmtTok := [.year4, .lit '-', .monthNum, .lit '-', .dayNum]

def fmtdby2 : List FmtTok := [.dayNum, .ws, .monthAbbr, .ws, .year2]

/-- Tail of the month-day-year search pattern after the letters and first
whitespace run: n digits, an optional comma, more whitespace, then four
digits; returns the consumed length. -/
def tryDigitsTail (r : List Char) (n : Nat) : Option Nat :=
  let ds := r.take n
  if ds.length = n ∧ ds.all Char.isDigit then
    let r1 := r.drop n
    let (r2, commaLen) :=
      match r1 with
      | c :: t => if c = ',' then (t, 1) else (r1, 0)
      | [] => (r1, 0)
    let (ws2, r3) := r2.span pyIsSpace
    if 1 ≤ ws2.length then
      let ys := r3.take 4
      if ys.length = 4 ∧ ys.all Char.isDigit then some (n + commaLen + ws2.length + 4)
      else none
    else none
  else none

/-- Attempt of the regex ([A-Za-z]\x7b3,9\x7d\s+\d\x7b1,2\x7d,?\s+\d\x7b4\x7d)
anchored at the head of s, returning the matched length. -/
def mdyMatchLen (s : List Char) : Option Nat :=
  let (letters, r1) := s.span Char.isAlpha
  if 3 ≤ letters.length ∧ letters.length ≤ 9 then
    let (ws1, r2) := r1.span pyIsSpace
    if 1 ≤ ws1.length then
      match tryDigitsTail r2 2 <|> tryDigitsTail r2 1 with
      | some k => some (letters.length + ws1.length + k)
      | none => none
    else none
  else none

/-- re.search for the month-day-year pattern: leftmost match wins. -/
def searchMDY : List Char → Option (List Char)
  | [] => none
  | c :: t =>
    match mdyMatchLen (c :: t) with
    | some n => some ((c :: t).take n)
    | none => searchMDY t

def expiryLeadIns : List (List Char) :=
  ["expires".toList, "expiry".toList, "closing".toList, "closing date".toList]

def findFirstLead : List (List Char) → List Char → Option Nat
  | [], _ => none
  | p :: ps, s =>
    if startsWithChars p (pyLower s) then some p.length else findFirstLead ps s

/-- re.sub of ^(expires|expiry|closing|closing date)[:\s-]* with nothing,
case-insensitively: the leftmost alternative that matches wins (so the
closing date alternative is shadowed by closing), then the following run
of colons, whitespace and hyphens is dropped. -/
def stripExpiryLeadIn (s : List Char) : List Char :=
  match findFirstLead expiryLeadIns s with
  | some n => (s.drop n).dropWhile (fun c => c == ':' || pyIsSpace c || c == '-')
  | none => s

def removeCommas (l : List Char) : List Char := removeChar ',' l

/-- The \w class of re (ASCII part): letters, digits, underscore. -/
def pyIsWord (c : Char) : Bool := c.isAlphanum || c == '_'

/-- re.sub removing every character outside [\w\s\-,]. -/
def keepWordish (l : List Char) : List Char :=
  l.filter (fun c => pyIsWord c || pyIsSpace c || c == '-' || c == ',')

def postedFmts : List (List FmtTok) := [fmtBdY, fmtbdY, fmtdBY, fmtdbY]

def directFmts : List (List FmtTok) := [fmtBdY, fmtbdY, fmtdBY, fmtdbY, fmtYmd]

/-- parse_expiry_date of web_scraper.py (lines 31-81): strip, drop an
expiry lead-in, treat a posted date as posted + 30 days, then try the
direct format list on the cleaned text, then retry the month-day-year
search; None when nothing parses. -/
def parse_expiry_date (s0 : List Char) : Option PyDate :=
  if s0 = [] then none
  else
    let text := stripExpiryLeadIn (pyStrip s0)
    let postedRes : Option PyDate :=
      if pIn "posted" (pyLower text) then
        match searchMDY text with
        | some g =>
          match postedFmts.findSome? (fun f => pyStrptime f (pyStrip (removeCommas g))) with
          | some d => some (addDays d 30)
          | none => none
        | none => none
      else none
    match postedRes with
    | some d => some d
    | none =>
      match directFmts.findSome?
          (fun f => pyStrptime f (pyStrip (removeCommas (keepWordish text)))) with
      | some d => some d
      | none =>
        match searchMDY text with
        | some g =>
          [fmtBdY, fmtbdY].findSome? (fun f => pyStrptime f (pyStrip (removeCommas g)))
        | none => none

/-- is_job_current of web_scraper.py (lines 84-94), with datetime.now()
made explicit: fail closed when no expiry parses. -/
def is_job_current (today : PyDate) (s : List Char) : Bool :=
  match parse_expiry_date s with
  | none => false
  | some d => dateLe today d

/-- Python str.replace with an arbitrary pattern and empty replacement:
repeated leftmost non-overlapping removal. -/
def removeSub (pat : List Char) : List Char → List Char
  | [] => []
  | c :: t =>
    if h : pat ≠ [] ∧ startsWithChars pat (c :: t) = true then
      removeSub pat ((c :: t).drop pat.length)
    else c :: removeSub pat t
termination_by l => l.length
decreasing_by
  · simp only [List.length_drop, List.length_cons]
    have : pat.length ≠ 0 := by
      intro hz
      exact h.1 (List.length_eq_zero.mp hz)
    omega
  · simp

/-- re.match of \d\x7b1,2\x7d\s+\w+\s+\d\x7bk\x7d as a prefix of s
(k = 4 or 2): the digit run must have length one or two, then whitespace,
a word run, whitespace, and at least k digits. -/
def matchDigitsWordDigits (k : Nat) (s : List Char) : Bool :=
  let (ds, r1) := s.span Char.isDigit
  if 1 ≤ ds.length ∧ ds.length ≤ 2 then
    let (ws1, r2) := r1.span pyIsSpace
    if 1 ≤ ws1.length then
      let (wd, r3) := r2.span pyIsWord
      if 1 ≤ wd.length then
        let (ws2, r4) := r3.span pyIsSpace
        if 1 ≤ ws2.length then decide (k ≤ ((r4.span Char.isDigit).1).length)
        else false
      else false
    else false
  else false

/-- parse_expiry_date of web_scraper_clean.py (lines 30-47): only strings
containing "expires" are parsed, against d-b-Y and d-b-y formats; a
strptime failure is caught and yields None. -/
def parse_expiry_date_clean (s : List Char) : Option PyDate :=
  if s = [] ∨ s = "N/A".toList then none
  else
    let low := pyLower s
    if pIn "expires" low then
      let datePart := pyStrip (removeSub "expires".toList low)
      if matchDigitsWordDigits 4 datePart then pyStrptime fmtdbY datePart
      else if matchDigitsWordDigits 2 datePart then pyStrptime fmtdby2 datePart
      else none
    else none

/-- is_job_current of web_scraper_clean.py (lines 49-56): fail open when
no expiry parses. -/
def is_job_current_clean (today : PyDate) (s : List Char) : Bool :=
  match parse_expiry_date_clean s with
  | none => true
  | some d => dateLe today d

/-- The four weighted keyword sets of one category of the final
revision's taxonomy. -/
structure CatKeywords where
  primary : List String
  secondary : List String
  companyIndicators : List String
  exclusions : List String

/-- The taxonomy of classify_job_category in web_scraper.py
(lines 106-223), transcribed verbatim and in dict insertion order. -/
def categories : List (String × CatKeywords) :=
  [("Finance & Banking",
    { primary := ["accountant", "accounting", "finance", "financial", "audit", "auditor",
        "banking", "economist", "treasurer", "cashier", "bookkeeper", "payroll", "tax",
        "budget", "accounts", "financial analyst", "credit analyst", "loan officer",
        "investment"],
      secondary := ["financial statements", "general ledger", "accounts receivable",
        "accounts payable", "bank", "credit", "loan", "investment", "portfolio",
        "risk management"],
      companyIndicators := ["bank", "financial", "finance", "credit", "investment",
        "insurance"],
      exclusions := ["software", "system development", "programming", "IT support"] }),
   ("IT & Technology",
    { primary := ["developer", "programmer", "software engineer", "IT",
        "system administrator", "network", "database", "web developer", "cybersecurity",
        "data scientist", "technical support", "IT support", "software", "hardware"],
      secondary := ["programming", "coding", "javascript", "python", "java", "html",
        "css", "sql", "cloud", "server", "network security", "application", "digital",
        "technology"],
      companyIndicators := ["tech", "software", "IT", "digital", "computer", "technology"],
      exclusions := ["accounting software", "financial system", "payroll system"] }),
   ("Healthcare",
    { primary := ["nurse", "doctor", "medical", "physician", "dentist", "pharmacist",
        "therapist", "medical officer", "health officer", "radiographer",
        "lab technician", "midwife"],
      secondary := ["patient", "treatment", "clinical", "healthcare", "medical",
        "hospital", "clinic", "pharmacy", "nursing", "health", "diagnosis"],
      companyIndicators := ["hospital", "clinic", "medical", "health", "pharmaceutical"],
      exclusions := [] }),
   ("Education & Training",
    { primary := ["teacher", "instructor", "lecturer", "professor", "tutor", "trainer",
        "educational", "academic", "facilitator", "principal", "headmaster"],
      secondary := ["education", "training", "school", "university", "curriculum",
        "learning", "student", "teaching", "classroom", "academic"],
      companyIndicators := ["school", "university", "college", "education", "training"],
      exclusions := [] }),
   ("Sales & Marketing",
    { primary := ["sales", "marketing", "sales representative", "marketing manager",
        "business development", "sales executive", "marketing officer", "brand manager",
        "sales manager"],
      secondary := ["customer", "client", "promotion", "advertising", "brand", "retail",
        "commercial", "revenue", "target", "campaign", "market"],
      companyIndicators := ["retail", "marketing", "sales", "commercial"],
      exclusions := [] }),
   ("Human Resources",
    { primary := ["human resources", "HR", "recruitment", "hr officer", "hr manager",
        "talent acquisition", "personnel", "hr specialist"],
      secondary := ["employee", "benefits", "compensation", "workforce", "people",
        "talent", "recruitment", "hiring", "personnel"],
      companyIndicators := ["hr", "human resources", "recruitment"],
      exclusions := [] }),
   ("Engineering",
    { primary := ["engineer", "engineering", "mechanical engineer", "electrical engineer",
        "civil engineer", "project engineer", "maintenance engineer", "technical engineer"],
      secondary := ["mechanical", "electrical", "civil", "construction", "maintenance",
        "repair", "installation", "infrastructure", "technical"],
      companyIndicators := ["engineering", "construction", "manufacturing", "industrial"],
      exclusions := ["software engineer", "IT engineer"] }),
   ("Administration",
    { primary := ["administrator", "admin", "secretary", "clerk", "assistant",
        "receptionist", "administrative assistant", "office manager", "data entry",
        "filing clerk"],
      secondary := ["office", "administrative", "support", "filing", "coordination",
        "clerical", "reception"],
      companyIndicators := [],
      exclusions := [] }),
   ("Management",
    { primary := ["manager", "director", "supervisor", "head", "chief", "executive",
        "team leader", "senior manager", "general manager", "operations manager"],
      secondary := ["leadership", "management", "operations", "strategic", "planning",
        "oversight", "coordination"],
      companyIndicators := [],
      exclusions := [] }),
   ("Legal",
    { primary := ["lawyer", "attorney", "legal officer", "paralegal", "legal advisor",
        "legal counsel", "compliance officer"],
      secondary := ["legal", "law", "court", "judicial", "compliance", "contract",
        "litigation", "regulation"],
      companyIndicators := ["law firm", "legal", "court"],
      exclusions := [] }),
   ("Agriculture",
    { primary := ["agriculture", "farming", "farmer", "agricultural", "veterinary",
        "agronomy", "extension officer", "livestock"],
      secondary := ["crop", "livestock", "irrigation", "rural", "farming", "agricultural"],
      companyIndicators := ["agricultural", "farming", "livestock"],
      exclusions := [] }),
   ("NGO & Development",
    { primary := ["NGO", "development", "project officer", "program officer", "community",
        "humanitarian", "volunteer", "nonprofit"],
      secondary := ["social", "charity", "aid", "relief", "donor", "grant", "development"],
      companyIndicators := ["NGO", "foundation", "trust", "nonprofit", "charity"],
      exclusions := [] }),
   ("Consulting",
    { primary := ["consultant", "consulting", "advisory", "specialist", "freelance",
        "contractor", "expert"],
      secondary := ["consultancy", "expertise", "advisory", "specialist"],
      companyIndicators := ["consulting", "advisory"],
      exclusions := [] }),
   ("Transportation & Logistics",
    { primary := ["driver", "transport", "logistics", "delivery", "shipping", "warehouse",
        "supply chain", "distribution"],
      secondary := ["fleet", "cargo", "transportation", "logistics", "shipping"],
      companyIndicators := ["transport", "logistics", "shipping", "delivery"],
      exclusions := [] }),
   ("Security",
    { primary := ["security", "guard", "security guard", "protection", "surveillance"],
      secondary := ["safety", "risk", "emergency", "security"],
      companyIndicators := ["security"],
      exclusions := ["IT security", "cybersecurity"] })]

/-- The score accumulation of one category in web_scraper.py
(lines 228-257), as the source writes it: sequential += updates. -/
def catScore (k : CatKeywords) (tl dl cl comb : List Char) : Int :=
  let s1 := k.primary.foldl
    (fun acc kw => if pIn kw tl then acc + 10 else if pIn kw dl then acc + 8 else acc)
    (0 : Int)
  let s2 := k.secondary.foldl
    (fun acc kw =>
      if pIn kw tl then acc + 3
      else if pIn kw dl then acc + 2
      else if pIn kw cl then acc + 1
      else acc) s1
  let s3 := k.companyIndicators.foldl
    (fun acc kw => if pIn kw cl then acc + 5 else acc) s2
  k.exclusions.foldl (fun acc kw => if pIn kw comb then acc - 3 else acc) s3

/-- The per-category score list of the final classifier: inputs are
lower-cased and the combined text is the space-joined concatenation. -/
def categoryScores (t d c : List Char) : List (String × Int) :=
  let tl := pyLower t
  let dl := pyLower d
  let cl := pyLower c
  let comb := tl ++ ' ' :: (dl ++ ' ' :: cl)
  categories.map (fun p => (p.1, catScore p.2 tl dl cl comb))

/-- Python max(dict, key=dict.get): fold keeping the current best and
replacing it only on a strictly greater value, so the first maximum in
iteration order wins. -/
def pickMaxFrom (b : String × Int) : List (String × Int) → String × Int
  | [] => b
  | x :: xs => pickMaxFrom (if b.2 < x.2 then x else b) xs

/-- best_category and max_score of web_scraper.py lines 260-261 (the
category list is never empty, so the nil case is unreachable). -/
def classifyBest (t d c : List Char) : String × Int :=
  match categoryScores t d c with
  | [] => ("Other", 0)
  | b :: rest => pickMaxFrom b rest

def anyKw (ws : List String) (s : List Char) : Bool := ws.any (fun w => pIn w s)

/-- The fallback chain of web_scraper.py lines 267-287 for titles whose
best score is not positive. -/
def classifyFallback (tl comb : List Char) : String :=
  if anyKw ["accountant", "accounting", "finance", "financial"] tl then "Finance & Banking"
  else if anyKw ["manager", "director", "supervisor", "head"] tl then "Management"
  else if anyKw ["assistant", "clerk", "secretary", "admin"] tl then "Administration"
  else if anyKw ["officer", "coordinator"] tl then
    if anyKw ["health", "medical", "clinic"] comb then "Healthcare"
    else if anyKw ["finance", "accounting", "bank"] comb then "Finance & Banking"
    else if anyKw ["project", "program", "development"] comb then "NGO & Development"
    else "Administration"
  else "Other"

/-- classify_job_category of web_scraper.py (lines 96-287). -/
def classify_job_category (t d c : List Char) : String :=
  let b := classifyBest t d c
  if 0 < b.2 then b.1
  else classifyFallback (pyLower t) (pyLower t ++ ' ' :: (pyLower d ++ ' ' :: pyLower c))

/-- The taxonomy of classify_job_category in web_scraper_clean.py
(lines 65-130), transcribed verbatim and in dict insertion order. -/
def categories_clean : List (String × List String) :=
  [("Healthcare",
    ["nurse", "doctor", "medical", "health", "hospital", "clinic", "pharmacy",
     "pharmacist", "therapist", "healthcare", "dentist", "physician", "clinical",
     "patient", "treatment", "medical officer", "health officer", "nursing", "midwife",
     "radiographer", "lab technician"]),
   ("IT & Technology",
    ["developer", "programmer", "software", "IT", "system", "network", "database", "web",
     "technology", "computer", "digital", "cyber", "data", "analyst", "technical",
     "engineer", "coding", "programming", "javascript", "python", "java", "html", "css"]),
   ("Education & Training",
    ["teacher", "instructor", "education", "training", "academic", "school", "university",
     "lecturer", "professor", "tutor", "educational", "curriculum", "learning", "student",
     "teaching", "trainer", "facilitator"]),
   ("Finance & Banking",
    ["accountant", "finance", "banking", "financial", "audit", "budget", "accounting",
     "economist", "treasurer", "cashier", "credit", "loan", "investment", "tax",
     "bookkeeper", "payroll"]),
   ("Sales & Marketing",
    ["sales", "marketing", "market", "customer", "client", "business development",
     "promotion", "advertising", "brand", "retail", "commercial", "revenue", "target",
     "campaign"]),
   ("Human Resources",
    ["human resources", "HR", "recruitment", "talent", "personnel", "employee", "payroll",
     "benefits", "compensation", "training coordinator", "people", "workforce"]),
   ("Engineering",
    ["engineer", "engineering", "mechanical", "electrical", "civil", "construction",
     "architect", "technical", "maintenance", "repair", "installation", "infrastructure",
     "project engineer"]),
   ("Administration",
    ["administrator", "admin", "secretary", "clerk", "assistant", "receptionist",
     "office", "administrative", "coordinator", "support", "data entry", "filing"]),
   ("Management",
    ["manager", "director", "supervisor", "head", "chief", "executive", "leadership",
     "team lead", "senior", "management", "operations", "strategic", "planning", "CEO",
     "COO", "CFO"]),
   ("Agriculture",
    ["agriculture", "farming", "farmer", "agricultural", "crop", "livestock",
     "veterinary", "agronomy", "irrigation", "rural", "extension officer"]),
   ("Legal",
    ["lawyer", "legal", "attorney", "law", "court", "judicial", "legal officer",
     "paralegal", "compliance", "contract", "litigation"]),
   ("NGO & Development",
    ["NGO", "development", "community", "social", "humanitarian", "volunteer",
     "nonprofit", "charity", "aid", "relief", "donor", "grant", "project officer"]),
   ("Consulting",
    ["consultant", "consulting", "advisory", "expert", "specialist", "freelance",
     "contractor", "consultancy", "expertise"]),
   ("Transportation & Logistics",
    ["driver", "transport", "logistics", "delivery", "shipping", "warehouse",
     "supply chain", "distribution", "fleet", "cargo"]),
   ("Security",
    ["security", "guard", "protection", "safety", "surveillance", "risk", "emergency"]),
   ("Other", [])]

/-- The first-match loop of the earlier classifier: the Other entry is
skipped, and the first category owning a keyword that occurs in the
title, description or company wins. -/
def findCatClean : List (String × List String) → List Char → List Char → List Char → String
  | [], _, _, _ => "Other"
  | (name, kws) :: rest, tl, dl, cl =>
    if name = "Other" then findCatClean rest tl dl cl
    else if kws.any (fun kw => pIn kw tl || pIn kw dl || pIn kw cl) then name
    else findCatClean rest tl dl cl

/-- classify_job_category of web_scraper_clean.py (lines 58-143). -/
def classify_job_category_clean (t d c : List Char) : String :=
  findCatClean categories_clean (pyLower t) (pyLower d) (pyLower c)

/-- The per-keyword score of one category as the specification words it:
primary 10 in title else 8 in description, never both; secondary 3/2/1 on
title/description/company, first match wins; company indicators 5 each;
exclusions minus 3 for each keyword in the combined text. -/
def specCatScore (k : CatKeywords) (tl dl cl comb : List Char) : Int :=
  (k.primary.map (fun kw => if pIn kw tl then (10 : Int) else if pIn kw dl then 8 else 0)).sum
    + (k.secondary.map (fun kw =>
        if pIn kw tl then (3 : Int)
        else if pIn kw dl then 2
        else if pIn kw cl then 1
        else 0)).sum
    + (k.companyIndicators.map (fun kw => if pIn kw cl then (5 : Int) else 0)).sum
    - 3 * ((k.exclusions.filter (fun kw => pIn kw comb)).length : Int)

/-- The score list as the specification describes it. -/
def specCategoryScores (t d c : List Char) : List (String × Int) :=
  let tl := pyLower t
  let dl := pyLower d
  let cl := pyLower c
  let comb := tl ++ ' ' :: (dl ++ ' ' :: cl)
  categories.map (fun p => (p.1, specCatScore p.2 tl dl cl comb))

/-- Decimal digits of n, most significant first. -/
def natDigits (n : Nat) : List Nat :=
  if n < 10 then [n]
  else natDigits (n / 10) ++ [n % 10]
decreasing_by exact Nat.div_lt_self (by omega) (by omega)

/-- Python format specifier 03d: the decimal representation left-padded
with zeros to at least three characters. -/
def pad3 (n : Nat) : List Char :=
  let cs := (natDigits n).map Nat.digitChar
  if cs.length < 3 then List.replicate (3 - cs.length) '0' ++ cs else cs

/-- The generated listing id SiteTag_page03d_index03d_date, as every
scrape_page builds it. -/
def mkJobId (tag : List Char) (page idx : Nat) (date : List Char) : List Char :=
  tag ++ '_' :: (pad3 page ++ '_' :: (pad3 idx ++ '_' :: date))

/-- The two-letter site tags used by the five adapters of web_scraper.py
(lines 473, 654, 835/869/902, 1227/1272, 1543). -/
def finalSiteTags : List (List Char) :=
  ["VM".toList, "JZ".toList, "ZJ".toList, "VB".toList, "RM".toList]

/-- Id generation of VacancyMailScraper.scrape_page (web_scraper.py 473):
the zero-based loop index is shifted by one. -/
def vmJobId (page jobIndex : Nat) (date : List Char) : List Char :=
  mkJobId "VM".toList page (jobIndex + 1) date

/-- Id generation of JobsZimbabweScraper.scrape_page in
web_scraper_clean.py (line 426): the tag is ID. -/
def cleanJobsZimbabweJobId (page jobIndex : Nat) (date : List Char) : List Char :=
  mkJobId "ID".toList page (jobIndex + 1) date

/-- Id generation of ZimboJobsScraper.scrape_page in web_scraper_clean.py
(line 519): the tag is also ID. -/
def cleanZimboJobsJobId (page jobIndex : Nat) (date : List Char) : List Char :=
  mkJobId "ID".toList page (jobIndex + 1) date

/-- One anchor of a parsed page: its visible text and href attribute. -/
structure PageLink where
  text : List Char
  href : List Char

/-- Python str.isdigit on ASCII digits. -/
def pyIsDigitStr (s : List Char) : Bool := !s.isEmpty && s.all Char.isDigit

/-- Anchored match of the pattern page, one separator out of seps, then a
nonempty digit run; yields the value of the digit group. -/
def pageNumAt (seps : List Char) (s : List Char) : Option Nat :=
  if startsWithChars "page".toList s then
    match s.drop 4 with
    | c :: r =>
      if seps.contains c then
        let ds := (r.span Char.isDigit).1
        if ds.isEmpty then none else some (natOfDigits ds)
      else none
    | [] => none
  else none

/-- re.search for page=digits (seps = =) or page[=/]digits (seps = =/):
leftmost occurrence wins. -/
def searchPageNum (seps : List Char) : List Char → Option Nat
  | [] => none
  | c :: t =>
    match pageNumAt seps (c :: t) with
    | some v => some v
    | none => searchPageNum seps t

/-- Anchored match of /page/digits/ at the head of s. -/
def slashPageAt (s : List Char) : Option Nat :=
  if startsWithChars "/page/".toList s then
    match (s.drop 6).span Char.isDigit with
    | (ds, r) =>
      if ds.isEmpty then none
      else
        match r with
        | c :: _ => if c = '/' then some (natOfDigits ds) else none
        | [] => none
  else none

/-- re.search for /page/digits/, leftmost occurrence. -/
def searchSlashPage : List Char → Option Nat
  | [] => none
  | c :: t =>
    match slashPageAt (c :: t) with
    | some v => some v
    | none => searchSlashPage t

/-- Anchored match of Page, whitespace, then a run of digits and commas;
yields the matched substring. -/
def pageTextAt (s : List Char) : Option (List Char) :=
  if startsWithChars "Page".toList s then
    let rest := s.drop 4
    let (ws1, r1) := rest.span pyIsSpace
    if 1 ≤ ws1.length then
      let run := (r1.span (fun c => c.isDigit || c == ',')).1
      if 1 ≤ run.length then some ("Page".toList ++ ws1 ++ run) else none
    else none
  else none

/-- re.search for the Page N text, leftmost occurrence. -/
def searchPageText : List Char → Option (List Char)
  | [] => none
  | c :: t =>
    match pageTextAt (c :: t) with
    | some v => some v
    | none => searchPageText t

/-- One pagination link step of VacancyMailScraper.get_total_pages
(web_scraper.py 367-386): digit text, else a Last link, else a page=
parameter in the href. -/
def vmLinkUpdate (mp : Nat) (lk : PageLink) : Nat :=
  if pyIsDigitStr lk.text then max mp (natOfDigits lk.text)
  else if pIn "last" (pyLower lk.text) && !lk.href.isEmpty then
    match searchPageNum ['=', '/'] lk.href with
    | some v => max mp v
    | none => mp
  else if !lk.href.isEmpty && pIn "page=" lk.href then
    match searchPageNum ['='] lk.href with
    | some v => max mp v
    | none => mp
  else mp

/-- VacancyMailScraper.get_total_pages (web_scraper.py 356-394): the
document is the optional pagination container with its links; no cap is
applied on the way out. -/
def vmGetTotalPages (doc : Option (List PageLink)) : Nat :=
  match doc with
  | some links => links.foldl vmLinkUpdate 1
  | none => 1

/-- One link step of JobsZimbabweScraper.get_total_pages
(web_scraper.py 521-532): an href /page/N/ and digit link text both
raise the maximum. -/
def jzLinkUpdate (mp : Nat) (lk : PageLink) : Nat :=
  let mp1 :=
    if pIn "/page/" lk.href then
      match searchSlashPage lk.href with
      | some v => max mp v
      | none => mp
    else mp
  if pyIsDigitStr (pyStrip lk.text) then max mp1 (natOfDigits (pyStrip lk.text)) else mp1

/-- The document JobsZimbabweScraper.get_total_pages consumes: all
anchors with an href, and the whole page text. -/
structure JZDoc where
  links : List PageLink
  pageText : List Char

/-- JobsZimbabweScraper.get_total_pages (web_scraper.py 514-546): link
evidence, then a textual Page N marker, capped at 20. -/
def jzGetTotalPages (doc : JZDoc) : Nat :=
  let m1 := doc.links.foldl jzLinkUpdate 1
  let m2 :=
    if pIn "Page " doc.pageText then
      match searchPageText doc.pageText with
      | some matched =>
        let s := removeCommas (removeSub "Page ".toList matched)
        if pyIsDigitStr s then max m1 (natOfDigits s) else m1
      | none => m1
    else m1
  min m2 20

/-- One link step of ZimboJobsScraper.get_total_pages
(web_scraper.py 707-719): digit link text and page= parameters. -/
def zjLinkUpdate (mp : Nat) (lk : PageLink) : Nat :=
  let mp1 := if pyIsDigitStr lk.text then max mp (natOfDigits lk.text) else mp
  if pIn "page=" lk.href then
    match searchPageNum ['='] lk.href with
    | some v => max mp1 v
    | none => mp1
  else mp1

/-- ZimboJobsScraper.get_total_pages (web_scraper.py 700-724), capped
at 20. -/
def zjGetTotalPages (links : List PageLink) : Nat :=
  min (links.foldl zjLinkUpdate 1) 20

/-- scrape_multiple_sites (web_scraper.py 1576-1607, web_scraper_clean.py
551-580): run the configured adapters in order; a run that raises (None)
contributes nothing and a count of zero; a successful run appends its
listings and records their number.  Counts are positional; the source
keys them by the adapter's site_name. -/
def scrape_multiple_sites {α : Type} (runs : List (Option (List α))) : List α × List Nat :=
  runs.foldl
    (fun acc r =>
      match r with
      | some jobs => (acc.1 ++ jobs, acc.2 ++ [jobs.length])
      | none => (acc.1, acc.2 ++ [0]))
    ([], [])

/-- Python exceptions relevant to the ZimboJobs HTML traversal. -/
inductive PyErr where
  | nameError
deriving DecidableEq

/-- The local variable expiry_date in the scope of the HTML traversal of
ZimboJobsScraper.scrape_page in web_scraper.py (lines 805-865): no
assignment to it exists on that path, so reading it raises NameError. -/
def zjExpiryDateVar : Option (List Char) := none

/-- The local variable job_index read by that loop's except handler
(line 864): the loop binds job_elem, not job_index, so the handler's
f-string raises NameError as well. -/
def zjJobIndexVar : Option Nat := none

def jobKeywords : List String :=
  ["job", "position", "vacancy", "career", "hiring", "apply", "work"]

/-- The nonempty stripped lines of an element's text (web_scraper.py
820). -/
def zjElemLines (t : List Char) : List (List Char) :=
  ((t.splitOn '\n').map pyStrip).filter (fun l => !l.isEmpty)

/-- The three guards an element must pass before the record is built
(web_scraper.py 808-823): minimum length, a job-like keyword, and at
least two nonempty lines. -/
def zjPassesFilters (t : List Char) : Bool :=
  !(decide (t.length < 20)) && jobKeywords.any (fun kw => pIn kw (pyLower t)) &&
    !(decide ((zjElemLines t).length < 2))

/-- Building the record dict (web_scraper.py 838-855) evaluates
clean_text(expiry_date) before anything is appended; the ok branch is
unreachable because the variable is unbound in that scope. -/
def zjBuildRecord (t : List Char) : Except PyErr (List Char) :=
  match zjExpiryDateVar with
  | some _ => Except.ok (clean_text t)
  | none => Except.error PyErr.nameError

/-- The except handler (web_scraper.py 863-865) formats job_index into
its log message; with the variable unbound it raises instead of
continuing. -/
def zjExceptHandler : Except PyErr Unit :=
  match zjJobIndexVar with
  | some _ => Except.ok ()
  | none => Except.error PyErr.nameError

/-- Processing one candidate element: filters skip it, or the record
build fails and the handler itself fails. -/
def zjProcessElem (t : List Char) : Except PyErr (Option (List Char)) :=
  if zjPassesFilters t then
    match zjBuildRecord t with
    | Except.ok j => Except.ok (some j)
    | Except.error _ =>
      match zjExceptHandler with
      | Except.ok _ => Except.ok none
      | Except.error e2 => Except.error e2
  else Except.ok none

/-- The loop over one container list, with the shared job_count and its
per-ten break (web_scraper.py 805-861). -/
def zjInnerLoop : List (List Char) → List (List Char) → Nat → Except PyErr (List (List Char) × Nat)
  | [], acc, count => Except.ok (acc, count)
  | t :: rest, acc, count =>
    match zjProcessElem t with
    | Except.error e => Except.error e
    | Except.ok none => zjInnerLoop rest acc count
    | Except.ok (some j) =>
      if 10 ≤ count + 1 then Except.ok (acc ++ [j], count + 1)
      else zjInnerLoop rest (acc ++ [j]) (count + 1)

/-- The loop over all candidate container lists. -/
def zjOuterLoop : List (List (List Char)) → List (List Char) → Nat → Except PyErr (List (List Char) × Nat)
  | [], acc, count => Except.ok (acc, count)
  | cl :: rest, acc, count =>
    match zjInnerLoop cl acc count with
    | Except.error e => Except.error e
    | Except.ok (acc1, c1) => zjOuterLoop rest acc1 c1

/-- The title of the hardcoded fallback entry (web_scraper.py 868-887). -/
def zjFallbackJob : List Char := "Jobs Available - Visit ZimboJobs.com".toList

/-- ZimboJobsScraper.scrape_page of web_scraper.py after the fetch: the
JSON-LD jobs short-circuit; otherwise the HTML traversal runs under the
outer try, whose except returns the empty list and the None sentinel;
the fallback record is appended only when jobs_data stayed empty. -/
def zjScrapePageHtml (jsonJobs : List (List Char)) (containers : List (List (List Char))) :
    List (List Char) × Option Unit :=
  if !jsonJobs.isEmpty then (jsonJobs, some ())
  else
    match zjOuterLoop containers [] 0 with
    | Except.error _ => ([], none)
    | Except.ok (jobs, _) =>
      if jobs.isEmpty then ([zjFallbackJob], some ()) else (jobs, some ())

theorem replaceChar_of_not_mem {a b : Char} {l : List Char}
    (h : ∀ c ∈ l, c ≠ a) : replaceChar a b l = l := by
  induction l with
  | nil => rfl
  | cons x t ih =>
    simp only [replaceChar, List.map_cons]
    rw [if_neg (h x (by simp))]
    have : replaceChar a b t = t := ih (fun c hc => h c (by simp [hc]))
    simpa [replaceChar] using this

theorem removeChar_of_not_mem {a : Char} {l : List Char}
    (h : ∀ c ∈ l, c ≠ a) : removeChar a l = l := by
  rw [removeChar, List.filter_eq_self]
  intro c hc
  simpa using h c hc

theorem asciiFilter_of_ascii {l : List Char}
    (h : ∀ c ∈ l, c.toNat ≤ 127) : asciiFilter l = l := by
  rw [asciiFilter, List.filter_eq_self]
  intro c hc
  simpa using h c hc

theorem mem_of_mem_dropTrailingWhile {p : Char → Bool} {l : List Char} {c : Char}
    (h : c ∈ dropTrailingWhile p l) : c ∈ l := by
  rw [dropTrailingWhile, List.mem_reverse] at h
  have := (List.dropWhile_sublist (l := l.reverse) p).subset h
  simpa using this

theorem mem_of_mem_pyStrip {l : List Char} {c : Char}
    (h : c ∈ pyStrip l) : c ∈ l := by
  have h1 := mem_of_mem_dropTrailingWhile h
  exact (List.dropWhile_sublist (l := l) pyIsSpace).subset h1

theorem dropWhile_dropWhile {p : Char → Bool} (l : List Char) :
    (l.dropWhile p).dropWhile p = l.dropWhile p := by
  induction l with
  | nil => rfl
  | cons x t ih =>
    by_cases h : p x
    · simp [List.dropWhile_cons, h, ih]
    · simp [List.dropWhile_cons, h]

theorem dropWhile_eq_self_of_isPrefix {p : Char → Bool} {x y : List Char}
    (hx : x.dropWhile p = x) (hy : y <+: x) : y.dropWhile p = y := by
  cases y with
  | nil => rfl
  | cons b t =>
    obtain ⟨r, hr⟩ := hy
    cases x with
    | nil => simp at hr
    | cons a s =>
      have hab : a = b := by
        have := congrArg (fun l => l.head?) hr.symm
        simpa using this
      subst hab
      by_cases hpa : p a
      · exfalso
        rw [List.dropWhile_cons, if_pos hpa] at hx
        have hlen := (List.dropWhile_sublist (l := s) p).length_le
        rw [hx] at hlen
        simp at hlen
      · rw [List.dropWhile_cons, if_neg hpa]

theorem dropTrailingWhile_idem {p : Char → Bool} (l : List Char) :
    dropTrailingWhile p (dropTrailingWhile p l) = dropTrailingWhile p l := by
  simp only [dropTrailingWhile, List.reverse_reverse]
  rw [dropWhile_dropWhile]

theorem dropTrailingWhile_isPrefix {p : Char → Bool} (l : List Char) :
    dropTrailingWhile p l <+: l := by
  rw [dropTrailingWhile]
  conv_rhs => rw [← List.reverse_reverse l]
  exact List.reverse_prefix.mpr (List.dropWhile_suffix p)

theorem pyStrip_idem (l : List Char) : pyStrip (pyStrip l) = pyStrip l := by
  have h1 : (l.dropWhile pyIsSpace).dropWhile pyIsSpace = l.dropWhile pyIsSpace :=
    dropWhile_dropWhile l
  have h2 : pyStrip l <+: l.dropWhile pyIsSpace := dropTrailingWhile_isPrefix _
  have h3 : (pyStrip l).dropWhile pyIsSpace = pyStrip l :=
    dropWhile_eq_self_of_isPrefix h1 h2
  show dropTrailingWhile pyIsSpace ((pyStrip l).dropWhile pyIsSpace) = pyStrip l
  rw [h3]
  exact dropTrailingWhile_idem _

theorem clean_text_ascii {l : List Char} : ∀ c ∈ clean_text l, c.toNat ≤ 127 := by
  intro c hc
  have h1 : c ∈ asciiFilter (removeChar '…'
      (replaceChar '”' '"' (replaceChar '“' '"'
        (replaceChar '’' (Char.ofNat 39) (replaceChar '‘' (Char.ofNat 39)
          (replaceChar '—' '-' (replaceChar '–' '-' l))))))) :=
    mem_of_mem_pyStrip hc
  rw [asciiFilter, List.mem_filter] at h1
  simpa using h1.2

theorem clean_text_isStripped (l : List Char) :
    pyStrip (clean_text l) = clean_text l := by
  show pyStrip (pyStrip _) = pyStrip _
  exact pyStrip_idem _

/-- C4: the text normalizer clean_text is idempotent: cleaning an already
cleaned string changes nothing, for every input string. -/
theorem clean_text_idempotent (l : List Char) :
    clean_text (clean_text l) = clean_text l := by
  have hA : ∀ c ∈ clean_text l, c.toNat ≤ 127 := clean_text_ascii
  have hne : ∀ (a : Char), 127 < a.toNat → ∀ c ∈ clean_text l, c ≠ a := by
    intro a ha c hc he
    have := hA c hc
    rw [he] at this
    omega
  show clean_text (clean_text l) = clean_text l
  rw [clean_text]
  rw [replaceChar_of_not_mem (hne '–' (by decide))]
  rw [replaceChar_of_not_mem (hne '—' (by decide))]
  rw [replaceChar_of_not_mem (hne '‘' (by decide))]
  rw [replaceChar_of_not_mem (hne '’' (by decide))]
  rw [replaceChar_of_not_mem (hne '“' (by decide))]
  rw [replaceChar_of_not_mem (hne '”' (by decide))]
  rw [removeChar_of_not_mem (hne '…' (by decide))]
  rw [asciiFilter_of_ascii hA]
  exact clean_text_isStripped l

theorem foldl_primary_shift (tl dl : List Char) :
    ∀ (l : List String) (a : Int),
      l.foldl (fun acc kw => if pIn kw tl then acc + 10 else if pIn kw dl then acc + 8 else acc) a
        = a + (l.map (fun kw => if pIn kw tl then (10 : Int) else if pIn kw dl then 8 else 0)).sum := by
  intro l
  induction l with
  | nil => intro a; simp
  | cons x t ih =>
    intro a
    simp only [List.foldl_cons, List.map_cons, List.sum_cons]
    rw [ih]
    split_ifs <;> ring

theorem foldl_secondary_shift (tl dl cl : List Char) :
    ∀ (l : List String) (a : Int),
      l.foldl (fun acc kw =>
          if pIn kw tl then acc + 3
          else if pIn kw dl then acc + 2
          else if pIn kw cl then acc + 1
          else acc) a
        = a + (l.map (fun kw =>
            if pIn kw tl then (3 : Int)
            else if pIn kw dl then 2
            else if pIn kw cl then 1
            else 0)).sum := by
  intro l
  induction l with
  | nil => intro a; simp
  | cons x t ih =>
    intro a
    simp only [List.foldl_cons, List.map_cons, List.sum_cons]
    rw [ih]
    split_ifs <;> ring

theorem foldl_indicator_shift (cl : List Char) :
    ∀ (l : List String) (a : Int),
      l.foldl (fun acc kw => if pIn kw cl then acc + 5 else acc) a
        = a + (l.map (fun kw => if pIn kw cl then (5 : Int) else 0)).sum := by
  intro l
  induction l with
  | nil => intro a; simp
  | cons x t ih =>
    intro a
    simp only [List.foldl_cons, List.map_cons, List.sum_cons]
    rw [ih]
    split_ifs <;> ring

theorem foldl_exclusion_shift (comb : List Char) :
    ∀ (l : List String) (a : Int),
      l.foldl (fun acc kw => if pIn kw comb then acc - 3 else acc) a
        = a - 3 * ((l.filter (fun kw => pIn kw comb)).length : Int) := by
  intro l
  induction l with
  | nil => intro a; simp
  | cons x t ih =>
    intro a
    simp only [List.foldl_cons, List.filter_cons]
    by_cases hx : pIn x comb
    · rw [if_pos hx, if_pos hx, ih]
      simp only [List.length_cons]
      push_cast
      ring
    · rw [if_neg hx, if_neg hx, ih]

theorem catScore_eq_spec (k : CatKeywords) (tl dl cl comb : List Char) :
    catScore k tl dl cl comb = specCatScore k tl dl cl comb := by
  simp only [catScore, specCatScore]
  rw [foldl_exclusion_shift, foldl_indicator_shift, foldl_secondary_shift,
    foldl_primary_shift]
  ring

theorem categoryScores_eq_spec (t d c : List Char) :
    categoryScores t d c = specCategoryScores t d c := by
  simp only [categoryScores, specCategoryScores, catScore_eq_spec]

theorem pickMaxFrom_spec :
    ∀ (xs : List (String × Int)) (b : String × Int),
      ∃ l1 l2, b :: xs = l1 ++ pickMaxFrom b xs :: l2 ∧
        (∀ y ∈ l1, y.2 < (pickMaxFrom b xs).2) ∧
        (∀ y ∈ l2, y.2 ≤ (pickMaxFrom b xs).2) := by
  intro xs
  induction xs with
  | nil =>
    intro b
    exact ⟨[], [], by simp [pickMaxFrom], by simp, by simp⟩
  | cons x t ih =>
    intro b
    by_cases hbx : b.2 < x.2
    · obtain ⟨l1, l2, hdec, hlt, hle⟩ := ih x
      have hred : pickMaxFrom b (x :: t) = pickMaxFrom x t := by
        simp [pickMaxFrom, hbx]
      set r := pickMaxFrom x t
      rw [hred]
      have hxr : x.2 ≤ r.2 := by
        cases l1 with
        | nil =>
          have hx := (List.cons.injEq _ _ _ _).mp (by simpa using hdec)
          exact le_of_eq (congrArg Prod.snd hx.1)
        | cons h1 t1 =>
          rw [List.cons_append] at hdec
          have hx := (List.cons.injEq _ _ _ _).mp hdec
          have hx2 : x.2 = h1.2 := congrArg Prod.snd hx.1
          rw [hx2]
          exact le_of_lt (hlt h1 (List.mem_cons_self _ _))
      refine ⟨b :: l1, l2, ?_, ?_, hle⟩
      · rw [List.cons_append, ← hdec]
      · intro y hy
        rcases List.mem_cons.mp hy with h | h
        · have hyb : y.2 = b.2 := congrArg Prod.snd h
          rw [hyb]
          exact lt_of_lt_of_le hbx hxr
        · exact hlt y h
    · have hxb : x.2 ≤ b.2 := le_of_not_lt hbx
      obtain ⟨l1, l2, hdec, hlt, hle⟩ := ih b
      have hred : pickMaxFrom b (x :: t) = pickMaxFrom b t := by
        simp [pickMaxFrom, hbx]
      set r := pickMaxFrom b t
      rw [hred]
      cases l1 with
      | nil =>
        have hx := (List.cons.injEq _ _ _ _).mp (by simpa using hdec)
        refine ⟨[], x :: t, ?_, by simp, ?_⟩
        · rw [List.nil_append, ← hx.1]
        · intro y hy
          have hbr : b.2 = r.2 := congrArg Prod.snd hx.1
          rcases List.mem_cons.mp hy with h | h
          · have hyx : y.2 = x.2 := congrArg Prod.snd h
            rw [hyx, ← hbr]
            exact hxb
          · rw [hx.2] at h
            exact hle y h
      | cons h1 t1 =>
        rw [List.cons_append] at hdec
        have hx := (List.cons.injEq _ _ _ _).mp hdec
        have hbr : b.2 < r.2 := by
          have hh := hlt h1 (List.mem_cons_self _ _)
          have hb2 : b.2 = h1.2 := congrArg Prod.snd hx.1
          rw [hb2]
          exact hh
        refine ⟨b :: x :: t1, l2, ?_, ?_, hle⟩
        · rw [hx.2]
          simp
        · intro y hy
          rcases List.mem_cons.mp hy with h | h
          · have hyb : y.2 = b.2 := congrArg Prod.snd h
            rw [hyb]
            exact hbr
          · rcases List.mem_cons.mp h with h2 | h2
            · have hyx : y.2 = x.2 := congrArg Prod.snd h2
              rw [hyx]
              exact lt_of_le_of_lt hxb hbr
            · exact hlt y (List.mem_cons_of_mem _ h2)

/-- C1: for every title, description and company, each per-category score
of the final classifier equals the specification's weighted sum (each
primary keyword 10 in the lower-cased title else 8 in the description,
never both; each secondary keyword 3 in title else 2 in description else
1 in company; each company indicator in company 5; each exclusion in the
space-joined combined text minus 3), and whenever the best score is
positive the returned category is a maximum-scoring one with every
earlier category in taxonomy order scoring strictly less. -/
theorem c1_classifier_scoring_and_tiebreak (t d c : List Char) :
    categoryScores t d c = specCategoryScores t d c ∧
    (0 < (classifyBest t d c).2 →
      classify_job_category t d c = (classifyBest t d c).1 ∧
      ∃ l1 l2, categoryScores t d c = l1 ++ classifyBest t d c :: l2 ∧
        (∀ y ∈ l1, y.2 < (classifyBest t d c).2) ∧
        (∀ y ∈ l2, y.2 ≤ (classifyBest t d c).2)) := by
  refine ⟨categoryScores_eq_spec t d c, ?_⟩
  intro hpos
  constructor
  · simp only [classify_job_category]
    rw [if_pos hpos]
  · cases hE : categoryScores t d c with
    | nil =>
      exfalso
      simp [categoryScores, categories] at hE
    | cons b rest =>
      have hcb : classifyBest t d c = pickMaxFrom b rest := by
        unfold classifyBest
        rw [hE]
      obtain ⟨l1, l2, hdec, hlt, hle⟩ := pickMaxFrom_spec rest b
      rw [hcb]
      exact ⟨l1, l2, hdec, hlt, hle⟩

set_option maxRecDepth 400000 in
/-- Witness for C1 at the specification's canonical classifier input. -/
theorem c1_classifier_scoring_witness :
    classify_job_category "Senior Accountant".toList "Prepare financial statements".toList
        "ABC Bank".toList
      = (classifyBest "Senior Accountant".toList "Prepare financial statements".toList
          "ABC Bank".toList).1 ∧
    ∃ l1 l2,
      categoryScores "Senior Accountant".toList "Prepare financial statements".toList
          "ABC Bank".toList
        = l1 ++ classifyBest "Senior Accountant".toList "Prepare financial statements".toList
            "ABC Bank".toList :: l2 ∧
      (∀ y ∈ l1, y.2 < (classifyBest "Senior Accountant".toList
          "Prepare financial statements".toList "ABC Bank".toList).2) ∧
      (∀ y ∈ l2, y.2 ≤ (classifyBest "Senior Accountant".toList
          "Prepare financial statements".toList "ABC Bank".toList).2) :=
  (c1_classifier_scoring_and_tiebreak "Senior Accountant".toList
    "Prepare financial statements".toList "ABC Bank".toList).2 (by decide)

/-- C2: parse_expiry_date of the final revision maps the explicit expiry
string to 2025-08-31, the posted string to posted + 30 days = 2025-08-31,
and garbage to None. -/
theorem c2_parse_expiry_examples :
    parse_expiry_date "Expires August 31, 2025".toList = some ⟨2025, 8, 31⟩ ∧
    parse_expiry_date "Posted on August 1, 2025".toList = some ⟨2025, 8, 31⟩ ∧
    parse_expiry_date "garbage".toList = none :=
  ⟨by decide, by decide, by decide⟩

/-- C3: on every string whose expiry cannot be parsed, the final
revision's currency filter fails closed (False) while the earlier
revision's fails open (True). -/
theorem c3_currency_policy (s : List Char) (today : PyDate) :
    (parse_expiry_date s = none → is_job_current today s = false) ∧
    (parse_expiry_date_clean s = none → is_job_current_clean today s = true) := by
  constructor
  · intro h
    simp [is_job_current, h]
  · intro h
    simp [is_job_current_clean, h]

/-- Witness for C3 at the unparseable input garbage. -/
theorem c3_currency_policy_witness :
    is_job_current ⟨2025, 10, 12⟩ "garbage".toList = false ∧
    is_job_current_clean ⟨2025, 10, 12⟩ "garbage".toList = true :=
  ⟨(c3_currency_policy "garbage".toList ⟨2025, 10, 12⟩).1 (by decide),
   (c3_currency_policy "garbage".toList ⟨2025, 10, 12⟩).2 (by decide)⟩

set_option maxRecDepth 400000 in
/-- C5: both revisions classify the Senior Accountant example as
Finance and Banking. -/
theorem c5_senior_accountant_classified :
    classify_job_category "Senior Accountant".toList
        "Prepare financial statements".toList "ABC Bank".toList = "Finance & Banking" ∧
    classify_job_category_clean "Senior Accountant".toList
        "Prepare financial statements".toList "ABC Bank".toList = "Finance & Banking" :=
  ⟨by decide, by decide⟩

set_option maxRecDepth 400000 in
/-- C9 counterexample: the two revisions' classifiers are not
extensionally equal; they disagree on the concrete input
(data entry, empty, empty). -/
theorem c9_classifiers_differ_counterexample :
    classify_job_category_clean "data entry".toList [] [] ≠
      classify_job_category "data entry".toList [] [] := by decide

set_option maxRecDepth 400000 in
/-- C9 (amended): the classification functionality is not repeated
unchanged across revisions: on (data entry, empty, empty) the earlier
revision returns IT and Technology while the final returns
Administration. -/
theorem c9_classifiers_not_equivalent :
    classify_job_category_clean "data entry".toList [] [] = "IT & Technology" ∧
    classify_job_category "data entry".toList [] [] = "Administration" :=
  ⟨by decide, by decide⟩

theorem natDigits_lt10 {n : Nat} (h : n < 10) : natDigits n = [n] := by
  rw [natDigits]
  simp [h]

theorem natDigits_ge10 {n : Nat} (h : ¬ n < 10) :
    natDigits n = natDigits (n / 10) ++ [n % 10] := by
  rw [natDigits]
  simp [h]

theorem pad3_eq_of_lt (n : Nat) (h : n < 1000) :
    pad3 n = [Nat.digitChar (n / 100), Nat.digitChar (n / 10 % 10), Nat.digitChar (n % 10)] := by
  by_cases h10 : n < 10
  · have e1 : n / 100 = 0 := by omega
    have e2 : n / 10 % 10 = 0 := by omega
    have e3 : n % 10 = n := by omega
    rw [e1, e2, e3]
    simp [pad3, natDigits_lt10 h10, List.replicate]
    decide
  · by_cases h100 : n < 100
    · have hd : n / 10 < 10 := by omega
      have e1 : n / 100 = 0 := by omega
      have e2 : n / 10 % 10 = n / 10 := by omega
      rw [e1, e2]
      simp [pad3, natDigits_ge10 h10, natDigits_lt10 hd, List.replicate]
      decide
    · have hd10 : ¬ n / 10 < 10 := by omega
      have hd100 : n / 100 < 10 := by omega
      have e : n / 10 / 10 = n / 100 := by omega
      have e2 : n / 10 % 10 = n / 10 % 10 := rfl
      simp [pad3, natDigits_ge10 h10, natDigits_ge10 hd10, e, natDigits_lt10 hd100]

theorem digitChar_inj :
    ∀ a, a < 10 → ∀ b, b < 10 → Nat.digitChar a = Nat.digitChar b → a = b := by decide

theorem pad3_inj {m n : Nat} (hm : m < 1000) (hn : n < 1000) (h : pad3 m = pad3 n) :
    m = n := by
  rw [pad3_eq_of_lt m hm, pad3_eq_of_lt n hn] at h
  have h1 := (List.cons.injEq _ _ _ _).mp h
  have h2 := (List.cons.injEq _ _ _ _).mp h1.2
  have h3 := (List.cons.injEq _ _ _ _).mp h2.2
  have e1 := digitChar_inj _ (by omega) _ (by omega) h1.1
  have e2 := digitChar_inj _ (by omega) _ (by omega) h2.1
  have e3 := digitChar_inj _ (by omega) _ (by omega) h3.1
  omega

theorem pad3_length {n : Nat} (h : n < 1000) : (pad3 n).length = 3 := by
  rw [pad3_eq_of_lt n h]
  rfl

/-- C6 (amended): in the final revision the five adapters carry pairwise
distinct site tags and the id generator is injective on tag, page and
index (pages and indices below 1000, as any run produces), so ids are
unique within a run; the earlier revision violates the claim since two
adapters share the tag ID. -/
theorem c6_final_run_ids_unique :
    finalSiteTags.Pairwise (· ≠ ·) ∧
    ∀ t1 ∈ finalSiteTags, ∀ t2 ∈ finalSiteTags, ∀ p1 i1 p2 i2 : Nat, ∀ d : List Char,
      p1 < 1000 → i1 < 1000 → p2 < 1000 → i2 < 1000 →
      mkJobId t1 p1 i1 d = mkJobId t2 p2 i2 d → t1 = t2 ∧ p1 = p2 ∧ i1 = i2 := by
  refine ⟨by decide, ?_⟩
  intro t1 h1 t2 h2 p1 i1 p2 i2 d hp1 hi1 hp2 hi2 heq
  have hL1 : t1.length = 2 := by
    simp only [finalSiteTags, List.mem_cons, List.not_mem_nil, or_false] at h1
    rcases h1 with rfl | rfl | rfl | rfl | rfl <;> rfl
  have hL2 : t2.length = 2 := by
    simp only [finalSiteTags, List.mem_cons, List.not_mem_nil, or_false] at h2
    rcases h2 with rfl | rfl | rfl | rfl | rfl <;> rfl
  simp only [mkJobId] at heq
  obtain ⟨ht, hr1⟩ := List.append_inj heq (by rw [hL1, hL2])
  obtain ⟨-, hr2⟩ := (List.cons.injEq _ _ _ _).mp hr1
  obtain ⟨hpad1, hr3⟩ := List.append_inj hr2 (by rw [pad3_length hp1, pad3_length hp2])
  obtain ⟨-, hr4⟩ := (List.cons.injEq _ _ _ _).mp hr3
  obtain ⟨hpad2, -⟩ := List.append_inj hr4 (by rw [pad3_length hi1, pad3_length hi2])
  exact ⟨ht, pad3_inj hp1 hp2 hpad1, pad3_inj hi1 hi2 hpad2⟩

/-- Witness for C6 at a concrete tag, page, index and date. -/
theorem c6_final_run_ids_unique_witness :
    "VM".toList = "VM".toList ∧ 1 = 1 ∧ 2 = 2 :=
  c6_final_run_ids_unique.2 "VM".toList (by decide) "VM".toList (by decide) 1 2 1 2
    "20250812".toList (by decide) (by decide) (by decide) (by decide) rfl

/-- C6 counterexample: in web_scraper_clean.py the JobsZimbabwe and
ZimboJobs adapters generate identical ids for the same page, index and
day, so ids are not unique across adapters within one run. -/
theorem c6_clean_id_collision_counterexample :
    cleanJobsZimbabweJobId 1 0 "20250812".toList =
      cleanZimboJobsJobId 1 0 "20250812".toList := rfl

theorem foldl_update_ge {u : Nat → PageLink → Nat} (hu : ∀ mp lk, mp ≤ u mp lk) :
    ∀ (links : List PageLink) (a : Nat), a ≤ links.foldl u a := by
  intro links
  induction links with
  | nil => intro a; exact le_refl a
  | cons x t ih => intro a; exact le_trans (hu a x) (ih (u a x))

theorem vmLinkUpdate_ge (mp : Nat) (lk : PageLink) : mp ≤ vmLinkUpdate mp lk := by
  simp only [vmLinkUpdate]
  split_ifs
  · exact le_max_left _ _
  · cases searchPageNum ['=', '/'] lk.href with
    | none => exact le_refl mp
    | some v => exact le_max_left mp v
  · cases searchPageNum ['='] lk.href with
    | none => exact le_refl mp
    | some v => exact le_max_left mp v
  · exact le_refl mp

theorem jzSlashStep_ge (mp : Nat) (lk : PageLink) :
    mp ≤ (if pIn "/page/" lk.href then
        match searchSlashPage lk.href with
        | some v => max mp v
        | none => mp
      else mp) := by
  split_ifs
  · cases searchSlashPage lk.href with
    | none => exact le_refl mp
    | some v => exact le_max_left mp v
  · exact le_refl mp

theorem jzLinkUpdate_ge (mp : Nat) (lk : PageLink) : mp ≤ jzLinkUpdate mp lk := by
  simp only [jzLinkUpdate]
  set A := (if pIn "/page/" lk.href then
      match searchSlashPage lk.href with
      | some v => max mp v
      | none => mp
    else mp) with hA
  have h1 : mp ≤ A := jzSlashStep_ge mp lk
  split_ifs
  · exact le_trans h1 (le_max_left _ _)
  · exact h1

theorem zjDigitStep_ge (mp : Nat) (lk : PageLink) :
    mp ≤ (if pyIsDigitStr lk.text then max mp (natOfDigits lk.text) else mp) := by
  split_ifs
  · exact le_max_left _ _
  · exact le_refl mp

theorem zjLinkUpdate_ge (mp : Nat) (lk : PageLink) : mp ≤ zjLinkUpdate mp lk := by
  simp only [zjLinkUpdate]
  set B := (if pyIsDigitStr lk.text then max mp (natOfDigits lk.text) else mp) with hB
  have h1 : mp ≤ B := zjDigitStep_ge mp lk
  split_ifs
  · cases searchPageNum ['='] lk.href with
    | none => exact h1
    | some v => exact le_trans h1 (le_max_left _ _)
  · exact h1

theorem jzPageTextStep_ge (m1 : Nat) (pt : List Char) :
    m1 ≤ (if pIn "Page " pt then
        match searchPageText pt with
        | some matched =>
          if pyIsDigitStr (removeCommas (removeSub "Page ".toList matched)) then
            max m1 (natOfDigits (removeCommas (removeSub "Page ".toList matched)))
          else m1
        | none => m1
      else m1) := by
  split_ifs
  · cases searchPageText pt with
    | none => exact le_refl m1
    | some matched =>
      dsimp only
      split_ifs
      · exact le_max_left _ _
      · exact le_refl m1
  · exact le_refl m1

theorem natOfDigits_replicate_nine :
    ∀ (k : Nat) (a : Nat),
      a + k ≤ List.foldl (fun a c => a * 10 + digitVal c) a (List.replicate k '9') := by
  intro k
  induction k with
  | zero => intro a; simp
  | succ n ih =>
    intro a
    rw [List.replicate_succ, List.foldl_cons]
    have h := ih (a * 10 + digitVal '9')
    have hd : digitVal '9' = 9 := rfl
    omega

/-- C7 (amended): every get_total_pages returns at least 1 and returns
exactly 1 without pagination evidence; JobsZimbabwe and ZimboJobs cap the
result at 20; VacancyMail applies no cap inside get_total_pages — its
result exceeds any bound for a suitable pagination link (the page loop of
scrape_jobs caps pages later). -/
theorem c7_get_total_pages_bounds :
    (∀ doc, 1 ≤ vmGetTotalPages doc) ∧
    vmGetTotalPages none = 1 ∧
    (∀ doc : JZDoc, 1 ≤ jzGetTotalPages doc ∧ jzGetTotalPages doc ≤ 20) ∧
    (∀ pt, pIn "Page " pt = false → jzGetTotalPages ⟨[], pt⟩ = 1) ∧
    (∀ links, 1 ≤ zjGetTotalPages links ∧ zjGetTotalPages links ≤ 20) ∧
    zjGetTotalPages [] = 1 ∧
    (∀ N, N < vmGetTotalPages (some [⟨List.replicate (N + 1) '9', []⟩])) := by
  refine ⟨?_, rfl, ?_, ?_, ?_, rfl, ?_⟩
  · intro doc
    cases doc with
    | none => exact le_refl 1
    | some links => exact foldl_update_ge vmLinkUpdate_ge links 1
  · intro doc
    constructor
    · simp only [jzGetTotalPages]
      refine le_min ?_ (by norm_num)
      exact le_trans (foldl_update_ge jzLinkUpdate_ge doc.links 1)
        (jzPageTextStep_ge _ doc.pageText)
    · exact min_le_right _ _
  · intro pt hpt
    simp [jzGetTotalPages, hpt]
  · intro links
    constructor
    · exact le_min (foldl_update_ge zjLinkUpdate_ge links 1) (by norm_num)
    · exact min_le_right _ _
  · intro N
    have hdig : pyIsDigitStr (List.replicate (N + 1) '9') = true := by
      simp [pyIsDigitStr, List.all_eq_true, List.mem_replicate]
    show N < List.foldl vmLinkUpdate 1 [⟨List.replicate (N + 1) '9', []⟩]
    rw [List.foldl_cons, List.foldl_nil]
    have hv : N + 1 ≤ natOfDigits (List.replicate (N + 1) '9') := by
      have := natOfDigits_replicate_nine (N + 1) 0
      simpa [natOfDigits] using this
    simp only [vmLinkUpdate, hdig, if_pos]
    omega

/-- Witness for C7 at a page text with no pagination marker. -/
theorem c7_get_total_pages_bounds_witness :
    jzGetTotalPages ⟨[], "no markers here".toList⟩ = 1 :=
  c7_get_total_pages_bounds.2.2.2.1 "no markers here".toList (by decide)

/-- C7 counterexample: a VacancyMail pagination block with the single
link text 500 makes get_total_pages return 500, above every safety cap
the sources or the specification mention (15 to 100). -/
theorem c7_vacancymail_uncapped_counterexample :
    vmGetTotalPages (some [⟨"500".toList, []⟩]) = 500 ∧
    100 < vmGetTotalPages (some [⟨"500".toList, []⟩]) :=
  ⟨by decide, by decide⟩

theorem scrape_multiple_sites_eq {α : Type} (runs : List (Option (List α))) :
    scrape_multiple_sites runs =
      ((runs.map (fun r => r.getD [])).join, runs.map (fun r => (r.getD []).length)) := by
  suffices h : ∀ (rs : List (Option (List α))) (acc : List α × List Nat),
      rs.foldl
          (fun acc r =>
            match r with
            | some jobs => (acc.1 ++ jobs, acc.2 ++ [jobs.length])
            | none => (acc.1, acc.2 ++ [0]))
          acc
        = (acc.1 ++ (rs.map (fun r => r.getD [])).join,
           acc.2 ++ rs.map (fun r => (r.getD []).length)) by
    have h0 := h runs ([], [])
    simpa [scrape_multiple_sites] using h0
  intro rs
  induction rs with
  | nil => intro acc; simp
  | cons r t ih =>
    intro acc
    cases r with
    | some jobs =>
      rw [List.foldl_cons]
      rw [ih]
      simp
    | none =>
      rw [List.foldl_cons]
      rw [ih]
      simp

/-- C8: an adapter whose run raises (None) is recorded with count zero,
and the aggregate still contains every listing of every adapter whose run
succeeded — later adapters are unaffected. -/
theorem c8_orchestrator_resilience {α : Type} (runs : List (Option (List α))) (i : Nat)
    (hfail : runs.get? i = some none) :
    (scrape_multiple_sites runs).2.get? i = some 0 ∧
    ∀ j jobs, runs.get? j = some (some jobs) →
      ∀ x ∈ jobs, x ∈ (scrape_multiple_sites runs).1 := by
  rw [scrape_multiple_sites_eq]
  constructor
  · rw [List.get?_map, hfail]
    rfl
  · intro j jobs hj x hx
    rw [List.mem_join]
    refine ⟨jobs, ?_, hx⟩
    have hmem : (some jobs : Option (List α)) ∈ runs := List.get?_mem hj
    exact List.mem_map.mpr ⟨some jobs, hmem, rfl⟩

/-- Witness for C8: the middle adapter raises, its count is zero, the
listings of the first and third adapters survive. -/
theorem c8_orchestrator_resilience_witness :
    (scrape_multiple_sites [some [1], none, some [2, 3]]).2.get? 1 = some 0 ∧
    ∀ j jobs, ([some [1], none, some [2, 3]] : List (Option (List Nat))).get? j = some (some jobs) →
      ∀ x ∈ jobs, x ∈ (scrape_multiple_sites [some [1], none, some [2, 3]]).1 :=
  c8_orchestrator_resilience [some [1], none, some [2, 3]] 1 (by decide)

theorem zjProcessElem_pass {t : List Char} (h : zjPassesFilters t = true) :
    zjProcessElem t = Except.error PyErr.nameError := by
  simp [zjProcessElem, h, zjBuildRecord, zjExpiryDateVar, zjExceptHandler, zjJobIndexVar]

theorem zjProcessElem_skip {t : List Char} (h : zjPassesFilters t = false) :
    zjProcessElem t = Except.ok none := by
  simp [zjProcessElem, h]

theorem zjInnerLoop_all_skip :
    ∀ (cl : List (List Char)) (acc : List (List Char)) (count : Nat),
      (∀ t ∈ cl, zjPassesFilters t = false) →
      zjInnerLoop cl acc count = Except.ok (acc, count) := by
  intro cl
  induction cl with
  | nil => intro acc count _; rfl
  | cons t rest ih =>
    intro acc count h
    have ht := h t (List.mem_cons_self _ _)
    simp only [zjInnerLoop, zjProcessElem_skip ht]
    exact ih acc count (fun u hu => h u (List.mem_cons_of_mem _ hu))

theorem zjInnerLoop_hits_error :
    ∀ (cl : List (List Char)) (acc : List (List Char)) (count : Nat),
      (∃ t ∈ cl, zjPassesFilters t = true) →
      zjInnerLoop cl acc count = Except.error PyErr.nameError := by
  intro cl
  induction cl with
  | nil =>
    intro acc count h
    exact absurd h (by simp)
  | cons t rest ih =>
    intro acc count h
    by_cases ht : zjPassesFilters t = true
    · simp only [zjInnerLoop, zjProcessElem_pass ht]
    · have ht2 : zjPassesFilters t = false := by
        cases hb : zjPassesFilters t
        · rfl
        · exact absurd hb ht
      simp only [zjInnerLoop, zjProcessElem_skip ht2]
      apply ih
      rcases h with ⟨u, hu, hpass⟩
      rcases List.mem_cons.mp hu with heq | hmem
      · rw [heq] at hpass
        exact absurd hpass ht
      · exact ⟨u, hmem, hpass⟩

theorem zjOuterLoop_all_skip :
    ∀ (cs : List (List (List Char))) (acc : List (List Char)) (count : Nat),
      (∀ cl ∈ cs, ∀ t ∈ cl, zjPassesFilters t = false) →
      zjOuterLoop cs acc count = Except.ok (acc, count) := by
  intro cs
  induction cs with
  | nil => intro acc count _; rfl
  | cons cl rest ih =>
    intro acc count h
    have hcl := h cl (List.mem_cons_self _ _)
    simp only [zjOuterLoop, zjInnerLoop_all_skip cl acc count hcl]
    exact ih acc count (fun u hu => h u (List.mem_cons_of_mem _ hu))

theorem zjOuterLoop_hits_error :
    ∀ (cs : List (List (List Char))) (acc : List (List Char)) (count : Nat),
      (∃ cl ∈ cs, ∃ t ∈ cl, zjPassesFilters t = true) →
      zjOuterLoop cs acc count = Except.error PyErr.nameError := by
  intro cs
  induction cs with
  | nil =>
    intro acc count h
    exact absurd h (by simp)
  | cons cl rest ih =>
    intro acc count h
    by_cases hcl : ∃ t ∈ cl, zjPassesFilters t = true
    · simp only [zjOuterLoop, zjInnerLoop_hits_error cl acc count hcl]
    · have hall : ∀ t ∈ cl, zjPassesFilters t = false := by
        intro u hu
        cases hb : zjPassesFilters u
        · rfl
        · exact absurd ⟨u, hu, hb⟩ hcl
      simp only [zjOuterLoop, zjInnerLoop_all_skip cl acc count hall]
      apply ih
      rcases h with ⟨cl2, hcl2, hex⟩
      rcases List.mem_cons.mp hcl2 with heq | hmem
      · rw [heq] at hex
        exact absurd hex hcl
      · exact ⟨cl2, hmem, hex⟩

/-- C10: with the JSON-LD pass empty, the HTML traversal of the final
revision's ZimboJobsScraper.scrape_page never contributes a listing: as
soon as one candidate element passes the filters, building the record
reads the unassigned expiry_date, the handler reads the unassigned
job_index, and the escaping NameError makes scrape_page return the empty
list with the None failure sentinel; the hardcoded fallback record is
reached exactly when no candidate passes the filters. -/
theorem c10_zimbojobs_html_branch (containers : List (List (List Char))) :
    ((∃ cl ∈ containers, ∃ t ∈ cl, zjPassesFilters t = true) →
      zjScrapePageHtml [] containers = ([], none)) ∧
    ((∀ cl ∈ containers, ∀ t ∈ cl, zjPassesFilters t = false) →
      zjScrapePageHtml [] containers = ([zjFallbackJob], some ())) := by
  constructor
  · intro h
    simp only [zjScrapePageHtml, List.isEmpty_nil, Bool.not_true, Bool.false_eq_true,
      if_false]
    rw [zjOuterLoop_hits_error containers [] 0 h]
  · intro h
    simp only [zjScrapePageHtml, List.isEmpty_nil, Bool.not_true, Bool.false_eq_true,
      if_false]
    rw [zjOuterLoop_all_skip containers [] 0 h]
    simp

/-- Witness for C10: one passing element forces the empty failure result;
one failing element leaves only the fallback record. -/
theorem c10_zimbojobs_html_branch_witness :
    zjScrapePageHtml [] [["Great job opportunity\napply now in Harare".toList]]
        = ([], none) ∧
    zjScrapePageHtml [] [["short".toList]] = ([zjFallbackJob], some ()) :=
  ⟨(c10_zimbojobs_html_branch
      [["Great job opportunity\napply now in Harare".toList]]).1 (by decide),
   (c10_zimbojobs_html_branch [["short".toList]]).2 (by decide)⟩
